import Mathlib

/-!
Shallow embedding of `src/model/fast_r2d2_downstream.py` (FastR2D2Classification
and FastR2D2CrossSentence) from alipay/StructuredLM_RTDT.

The encoder (`R2D2Cuda`), the parser (`TopdownParser`), `force_encode`, the
classifier weights and the torch numerics are external collaborators whose code
is not part of this file's source; they are modelled as abstract function
fields of an environment structure `Env`.  The control flow, data plumbing and
arithmetic of the two `forward` methods and of `pairwise_encoding` are
translated faithfully.  Besides its return value, each `forward` also produces
a trace of the collaborator calls it makes, so that claims about which
collaborators are invoked (and with which arguments) can be stated.
-/

namespace FastR2D2

/-- A matrix of token ids / attention-mask entries (`input_ids`, `attention_mask`). -/
abbrev Mat := List (List Int)

/-- A dense vector of reals, modelled over ℚ. -/
abbrev Vec := List ℚ

/-- Optional per-example list of index spans treated as atomic (`atom_spans`). -/
abbrev AtomSpans := Option (List (List (Nat × Nat)))

/-- Merge-trajectory guidance produced by the parser (`s_indices`). -/
abbrev SIndices := List (List Nat)

/-- Opaque payload `split_masks` of the encoder's sampled trees. -/
abbrev SplitMasks := List (List Nat)

/-- Opaque payload `split_points` of the encoder's sampled trees. -/
abbrev SplitPoints := List (List Nat)

/-- Class labels, one per example. -/
abbrev Labels := List Nat

/-- Named slots of the tensor cache (`r2d2_common.CacheSlots`); only `E_IJ`
is read by the downstream code. -/
inductive CacheSlots where
  | E_IJ
  deriving DecidableEq, Repr

/-- A node of a parse chart; carries the integer key of its stored vectors. -/
structure TreeNode where
  cache_id : Nat
  deriving DecidableEq, Repr

/-- The root of a per-example table, referencing the best-scoring node. -/
structure RootCell where
  best_node : TreeNode
  deriving DecidableEq, Repr

/-- A per-example parse table as consumed here: only `root.best_node.cache_id`
is accessed. -/
structure CellTable where
  root : RootCell
  deriving DecidableEq, Repr

/-- The tensor cache: a mapping from slot name and cache id to a stored vector. -/
structure TensorCache where
  slotVal : CacheSlots → Nat → Vec

/-- Batched gather `TensorCache.gather(ids, slots)`: one tensor per requested slot,
each stacking the slot's vectors over the ids in input order. -/
def TensorCache.gather (c : TensorCache) (ids : List Nat) (slots : List CacheSlots) :
    List (List Vec) :=
  slots.map (fun s => ids.map (c.slotVal s))

/-- The bundle `results['sampled_trees']` returned by the encoder. -/
structure SampledTrees where
  split_masks : SplitMasks
  split_points : SplitPoints

/-- The dictionary returned by a call to the encoder `R2D2Cuda.forward`:
`tables`, `tensor_cache`, `loss` (bidirectional LM loss) and `sampled_trees`. -/
structure R2D2Results where
  tables : List CellTable
  tensor_cache : TensorCache
  loss : ℚ
  sampled_trees : SampledTrees

/-- Trace events recording which collaborators a forward call invokes and with
which distinguishing arguments. -/
inductive Event where
  /-- parser called in guidance mode (`self.parser(ids, mask, atom_spans=...)`) -/
  | parserParse
  /-- parser called in KL mode (`self.parser(ids, mask, split_masks=..., split_points=...)`) -/
  | parserKL
  /-- encoder called (`self.r2d2(...)`), with the merge trajectories, the
  `sample_trees` count, and the `recover_tree` / `keep_tensor_cache` / `lm_loss` flags. -/
  | r2d2Call (merge : Option SIndices) (sampleTrees : Nat)
      (recoverTree keepCache lmLoss : Bool)
  /-- call to `force_encode(self.parser, self.r2d2, ...)`; the flag records that
  the module's parser object is passed as first argument. -/
  | forceEncodeCall (parserPassed : Bool)
  deriving DecidableEq

/-- The value returned by a forward call: a scalar training loss, or a matrix of
per-example class probabilities. -/
inductive Output where
  | loss (v : ℚ)
  | probs (p : List (List ℚ))
  deriving DecidableEq

/-- The environment of a forward call: the module's configuration and learned
parameters together with the behavior of the external collaborators.  All
function fields are opaque stand-ins for code outside this source file. -/
structure Env where
  /-- constructor flag `disable_parser` -/
  disableParser : Bool
  /-- Field `config.pairwise_task_id` (cross-sentence variant) -/
  task_id : Nat
  /-- Application of `self.classifier` to one row (linear → GELU → dropout → linear) -/
  classifier : Vec → List ℚ
  /-- Call `self.parser(input_ids, attention_mask, atom_spans=...)` → `s_indices` -/
  parserParse : Mat → Mat → AtomSpans → SIndices
  /-- Call `self.parser(input_ids, attention_mask, split_masks=..., split_points=...)` → KL loss -/
  parserKL : Mat → Mat → SplitMasks → SplitPoints → ℚ
  /-- Call `self.r2d2(input_ids, attention_mask, merge_trajectories, sample_trees,
  recover_tree, keep_tensor_cache, lm_loss)` -/
  r2d2Run : Mat → Mat → Option SIndices → Nat → Bool → Bool → Bool → R2D2Results
  /-- Call `force_encode(parser, r2d2, input_ids, attention_mask, atom_spans)`:
  one pooled vector per example -/
  forceEncode : Mat → Mat → AtomSpans → List Vec
  /-- Stand-in for `F.cross_entropy(logits, labels)` -/
  crossEntropy : List (List ℚ) → Labels → ℚ
  /-- Exponential used by `F.softmax`, abstract over ℚ (strictly positive
  for the real `exp`; stated as a hypothesis where needed) -/
  qexp : ℚ → ℚ
  /-- Lookup `self.r2d2.embedding` for a single token id -/
  embedding : Nat → Vec
  /-- Stand-in for `self.r2d2.tree_decoder` on one batch row of a length-3 sequence
  (batch rows are processed independently) -/
  treeDecoder : Vec × Vec × Vec → Vec × Vec × Vec

/-- One row of `F.softmax(x, dim=-1)`: `exp(x_i) / Σ_j exp(x_j)`. -/
def softmaxRow (e : ℚ → ℚ) (xs : List ℚ) : List ℚ :=
  let exps := xs.map e
  let s := exps.sum
  exps.map (fun v => v / s)

/-- The root-vector pooling step shared by all paths:
`root_cache_ids = [t.root.best_node.cache_id for t in tables]` followed by
`tensor_cache.gather(root_cache_ids, [CacheSlots.E_IJ])[0]`. -/
def pooledRows (tables : List CellTable) (cache : TensorCache) : List Vec :=
  let root_cache_ids := tables.map (fun t => t.root.best_node.cache_id)
  (cache.gather root_cache_ids [CacheSlots.E_IJ]).headD []

/-- Row-major flattening `x.view(-1, x.shape[-1])` of a `(B, 2, L)` tensor to
`(2·B, L)`: pair `b` contributes rows `2·b` and `2·b + 1`. -/
def flattenPairs {α : Type} (x : List (α × α)) : List α :=
  x.flatMap (fun p => [p.1, p.2])

/-- Row-major reshape `m.view(m.shape[0] / 2, 2, m.shape[-1])` of a `(2·B, D)`
tensor to `(B, 2, D)`: consecutive rows `2·b` and `2·b + 1` become pair `b`. -/
def unflattenPairs {α : Type} : List α → List (α × α)
  | a :: b :: rest => (a, b) :: unflattenPairs rest
  | _ => []

/-- Embedding of `FastR2D2CrossSentence.pairwise_encoding`: for each pair of
pooled vectors, prepend the task-marker embedding (`mask_ids` is `task_id`
repeated), run the tree decoder over the length-3 sequence, keep position 0,
and classify. -/
def FastR2D2CrossSentence.pairwise_encoding (E : Env) (e_ij : List (Vec × Vec)) :
    List (List ℚ) :=
  let sz := e_ij.length
  let mask_ids := List.replicate sz E.task_id
  let mask_embedding := mask_ids.map E.embedding
  let input_embedding := List.zipWith (fun m p => (m, p.1, p.2)) mask_embedding e_ij
  let outputs := input_embedding.map E.treeDecoder
  let mask_hidden := outputs.map (fun t => t.1)
  mask_hidden.map E.classifier

/-- Embedding of `FastR2D2Classification.forward`.  Returns the value of the
call (`Except.error` models a raised exception) together with the trace of
collaborator calls in program order. -/
def FastR2D2Classification.forward (E : Env) (input_ids attention_mask : Mat)
    (num_samples : Nat) (atom_spans : AtomSpans) (labels : Option Labels)
    (force_encoding : Bool) : Except String Output × List Event :=
  match labels with
  | some lbls =>
      -- training
      let s_indices : Option SIndices :=
        if !E.disableParser then some (E.parserParse input_ids attention_mask atom_spans)
        else none
      let parseTrace : List Event := if !E.disableParser then [.parserParse] else []
      -- `lm_loss` is not passed at this call site; the encoder computes its
      -- bidirectional LM loss by default (`results['loss']` is consumed below)
      let results := E.r2d2Run input_ids attention_mask s_indices num_samples true true true
      let tables := results.tables
      let tensor_cache := results.tensor_cache
      let e_ij := pooledRows tables tensor_cache
      let logits := e_ij.map E.classifier
      let loss := E.crossEntropy logits lbls
      let bilm_loss := results.loss
      let kl_loss : ℚ :=
        if !E.disableParser then
          E.parserKL input_ids attention_mask results.sampled_trees.split_masks
            results.sampled_trees.split_points
        else 0
      let klTrace : List Event := if !E.disableParser then [.parserKL] else []
      -- force encoding
      let e_ij2 := E.forceEncode input_ids attention_mask atom_spans
      let logits2 := e_ij2.map E.classifier
      let force_encoding_loss := E.crossEntropy logits2 lbls
      (Except.ok (Output.loss (force_encoding_loss + loss + kl_loss + bilm_loss)),
       parseTrace ++ [Event.r2d2Call s_indices num_samples true true true]
         ++ klTrace ++ [Event.forceEncodeCall true])
  | none =>
      -- two modes for inference
      if !force_encoding then
        let s_indices : Option SIndices :=
          if !E.disableParser then some (E.parserParse input_ids attention_mask atom_spans)
          else none
        let parseTrace : List Event := if !E.disableParser then [.parserParse] else []
        -- `sample_trees` is not passed at this call site (no sampling requested)
        let results := E.r2d2Run input_ids attention_mask s_indices 0 true true false
        let e_ij := pooledRows results.tables results.tensor_cache
        let logits := e_ij.map E.classifier
        (Except.ok (Output.probs (logits.map (softmaxRow E.qexp))),
         parseTrace ++ [Event.r2d2Call s_indices 0 true true false])
      else
        if E.disableParser then
          (Except.error "Force encoding is not supported when disable_parser == True", [])
        else
          let e_ij := E.forceEncode input_ids attention_mask atom_spans
          let logits := e_ij.map E.classifier
          (Except.ok (Output.probs (logits.map (softmaxRow E.qexp))),
           [Event.forceEncodeCall true])

/-- Embedding of `FastR2D2CrossSentence.forward`.  The `(B, 2, L)` inputs are
lists of row pairs; the first two statements of the method flatten them to
`(2·B, L)` matrices. -/
def FastR2D2CrossSentence.forward (E : Env)
    (input_ids3 attention_mask3 : List (List Int × List Int))
    (num_samples : Nat) (atom_spans : AtomSpans) (labels : Option Labels)
    (force_encoding : Bool) : Except String Output × List Event :=
  let input_ids : Mat := flattenPairs input_ids3
  let attention_mask : Mat := flattenPairs attention_mask3
  match labels with
  | some lbls =>
      -- training
      let s_indices : Option SIndices :=
        if !E.disableParser then some (E.parserParse input_ids attention_mask atom_spans)
        else none
      let parseTrace : List Event := if !E.disableParser then [.parserParse] else []
      let results := E.r2d2Run input_ids attention_mask s_indices num_samples true true true
      let tables := results.tables
      let tensor_cache := results.tensor_cache
      let sampled_trees := results.sampled_trees
      let e_ij := pooledRows tables tensor_cache
      let logits := FastR2D2CrossSentence.pairwise_encoding E (unflattenPairs e_ij)
      let loss := E.crossEntropy logits lbls
      let bilm_loss := results.loss
      -- NOTE: unlike the single-sentence variant there is no `disable_parser`
      -- guard here; the KL loss is computed unconditionally
      let kl_loss := E.parserKL input_ids attention_mask sampled_trees.split_masks
        sampled_trees.split_points
      -- force encoding
      let e_ij2 := E.forceEncode input_ids attention_mask atom_spans
      let logits2 := FastR2D2CrossSentence.pairwise_encoding E (unflattenPairs e_ij2)
      let force_encoding_loss := E.crossEntropy logits2 lbls
      (Except.ok (Output.loss (force_encoding_loss + loss + kl_loss + bilm_loss)),
       parseTrace ++ [Event.r2d2Call s_indices num_samples true true true]
         ++ [Event.parserKL] ++ [Event.forceEncodeCall true])
  | none =>
      -- two modes for inference
      if !force_encoding then
        let s_indices : Option SIndices :=
          if !E.disableParser then some (E.parserParse input_ids attention_mask atom_spans)
          else none
        let parseTrace : List Event := if !E.disableParser then [.parserParse] else []
        let results := E.r2d2Run input_ids attention_mask s_indices 0 true true false
        let e_ij := pooledRows results.tables results.tensor_cache
        let logits := FastR2D2CrossSentence.pairwise_encoding E (unflattenPairs e_ij)
        (Except.ok (Output.probs (logits.map (softmaxRow E.qexp))),
         parseTrace ++ [Event.r2d2Call s_indices 0 true true false])
      else
        if E.disableParser then
          (Except.error "Force encoding is not supported when disable_parser == True", [])
        else
          let e_ij := E.forceEncode input_ids attention_mask atom_spans
          let logits := FastR2D2CrossSentence.pairwise_encoding E (unflattenPairs e_ij)
          (Except.ok (Output.probs (logits.map (softmaxRow E.qexp))),
           [Event.forceEncodeCall true])

/-- A concrete environment whose collaborators return simple known constants,
used to evaluate the embedding on closed inputs. -/
def testEnv : Env where
  disableParser := false
  task_id := 7
  classifier := fun v => [v.sum, 1]
  parserParse := fun _ _ _ => [[0]]
  parserKL := fun _ _ _ _ => 3
  r2d2Run := fun _ _ _ _ _ _ _ =>
    { tables := [⟨⟨⟨4⟩⟩⟩, ⟨⟨⟨2⟩⟩⟩]
      tensor_cache := ⟨fun _ i => [(i : ℚ)]⟩
      loss := 5
      sampled_trees := ⟨[[1]], [[2]]⟩ }
  forceEncode := fun _ _ _ => [[1], [2]]
  crossEntropy := fun _ _ => 11
  qexp := fun _ => 1
  embedding := fun n => [(n : ℚ)]
  treeDecoder := fun t => t

/-! ### Helper lemmas about lists -/

lemma sum_map_div (xs : List ℚ) (s : ℚ) :
    (xs.map (fun v => v / s)).sum = xs.sum / s := by
  induction xs with
  | nil => simp
  | cons a t ih => simp [ih, add_div]

lemma zipWith_replicate_left {α β γ : Type} (f : α → β → γ) (c : α) (xs : List β) :
    List.zipWith f (List.replicate xs.length c) xs = xs.map (f c) := by
  induction xs with
  | nil => simp
  | cons a t ih => simp [List.replicate_succ, ih]

/-- Every row of `softmaxRow` is non-negative and the rows sum to 1, provided
the exponential is positive and the row is non-empty. -/
lemma softmaxRow_dist (e : ℚ → ℚ) (he : ∀ x, 0 < e x) (xs : List ℚ) (hne : xs ≠ []) :
    (∀ v ∈ softmaxRow e xs, 0 ≤ v) ∧ (softmaxRow e xs).sum = 1 := by
  have hpos : 0 < (xs.map e).sum := by
    apply List.sum_pos
    · intro x hx
      rcases List.mem_map.mp hx with ⟨y, _, hy⟩
      exact hy ▸ he y
    · simpa using hne
  constructor
  · intro v hv
    rcases List.mem_map.mp hv with ⟨u, hu, huv⟩
    rcases List.mem_map.mp hu with ⟨y, _, hy⟩
    have : 0 < u := hy ▸ he y
    exact huv ▸ le_of_lt (div_pos this hpos)
  · simp only [softmaxRow, sum_map_div]
    exact div_self (ne_of_gt hpos)

/-- Every row of a softmaxed logits matrix is a probability distribution when
the logit rows are non-empty. -/
lemma probs_dist (e : ℚ → ℚ) (he : ∀ x, 0 < e x) (logits : List (List ℚ))
    (hne : ∀ r ∈ logits, r ≠ []) :
    ∀ row ∈ logits.map (softmaxRow e), (∀ v ∈ row, 0 ≤ v) ∧ row.sum = 1 := by
  intro row hrow
  rcases List.mem_map.mp hrow with ⟨r, hr, hrrow⟩
  exact hrrow ▸ softmaxRow_dist e he r (hne r hr)

lemma flattenPairs_getElem_fst {α : Type} (x : List (α × α)) (b : Nat) :
    (flattenPairs x)[2 * b]? = x[b]?.map Prod.fst := by
  induction x generalizing b with
  | nil => simp [flattenPairs]
  | cons p t ih =>
    cases b with
    | zero => simp [flattenPairs]
    | succ b =>
      have h2 : 2 * (b + 1) = 2 * b + 1 + 1 := by ring
      simp only [flattenPairs, List.flatMap_cons, h2] at *
      simpa [flattenPairs] using ih b

lemma flattenPairs_getElem_snd {α : Type} (x : List (α × α)) (b : Nat) :
    (flattenPairs x)[2 * b + 1]? = x[b]?.map Prod.snd := by
  induction x generalizing b with
  | nil => simp [flattenPairs]
  | cons p t ih =>
    cases b with
    | zero => simp [flattenPairs]
    | succ b =>
      have h2 : 2 * (b + 1) + 1 = 2 * b + 1 + 1 + 1 := by ring
      simp only [flattenPairs, List.flatMap_cons, h2] at *
      simpa [flattenPairs] using ih b

lemma unflattenPairs_getElem {α : Type} (ys : List α) (b : Nat) :
    (unflattenPairs ys)[b]? =
      ys[2 * b]?.bind (fun u => ys[2 * b + 1]?.map (fun v => (u, v))) := by
  induction b generalizing ys with
  | zero =>
    match ys with
    | [] => simp [unflattenPairs]
    | [a] => simp [unflattenPairs]
    | a :: c :: rest => simp [unflattenPairs]
  | succ b ih =>
    match ys with
    | [] => simp [unflattenPairs]
    | [a] => simp [unflattenPairs]
    | a :: c :: rest =>
      have h2 : 2 * (b + 1) = 2 * b + 1 + 1 := by ring
      have h3 : 2 * (b + 1) + 1 = 2 * b + 1 + 1 + 1 := by ring
      simp only [unflattenPairs, h2, h3, List.getElem?_cons_succ]
      exact ih rest

lemma unflatten_flatten {α : Type} (x : List (α × α)) :
    unflattenPairs (flattenPairs x) = x := by
  induction x with
  | nil => rfl
  | cons p t ih =>
    show unflattenPairs (p.1 :: p.2 :: flattenPairs t) = p :: t
    simp [unflattenPairs, ih]

/-! ### Claim theorems -/

/-- C1: for every training call (labels provided) of
`FastR2D2Classification.forward` and `FastR2D2CrossSentence.forward`, the
returned value equals the exact unweighted sum of the parsed-path
classification cross-entropy loss, the encoder's bidirectional LM loss
(`results['loss']`), the parser KL loss, and the force-encoding classification
cross-entropy loss — no coefficients on any term. -/
theorem C1_training_loss_is_sum_of_four_terms (E : Env) (ids mask : Mat)
    (ids3 mask3 : List (List Int × List Int)) (ns : Nat) (as : AtomSpans)
    (lbls : Labels) (fe : Bool) :
    (let s_indices := if !E.disableParser then some (E.parserParse ids mask as) else none
     let results := E.r2d2Run ids mask s_indices ns true true true
     let parsedLoss := E.crossEntropy
       ((pooledRows results.tables results.tensor_cache).map E.classifier) lbls
     let bilmLoss := results.loss
     let klLoss := if !E.disableParser then
         E.parserKL ids mask results.sampled_trees.split_masks
           results.sampled_trees.split_points
       else 0
     let feLoss := E.crossEntropy ((E.forceEncode ids mask as).map E.classifier) lbls
     (FastR2D2Classification.forward E ids mask ns as (some lbls) fe).1 =
       Except.ok (Output.loss (feLoss + parsedLoss + klLoss + bilmLoss))) ∧
    (let iids := flattenPairs ids3
     let imask := flattenPairs mask3
     let s_indices := if !E.disableParser then some (E.parserParse iids imask as) else none
     let results := E.r2d2Run iids imask s_indices ns true true true
     let parsedLoss := E.crossEntropy
       (FastR2D2CrossSentence.pairwise_encoding E
         (unflattenPairs (pooledRows results.tables results.tensor_cache))) lbls
     let bilmLoss := results.loss
     let klLoss := E.parserKL iids imask results.sampled_trees.split_masks
       results.sampled_trees.split_points
     let feLoss := E.crossEntropy
       (FastR2D2CrossSentence.pairwise_encoding E
         (unflattenPairs (E.forceEncode iids imask as))) lbls
     (FastR2D2CrossSentence.forward E ids3 mask3 ns as (some lbls) fe).1 =
       Except.ok (Output.loss (feLoss + parsedLoss + klLoss + bilmLoss))) :=
  ⟨rfl, rfl⟩

/-- C3: for every inference call (labels absent) with `force_encoding=True`
while `disable_parser=True`, both variants raise an explicit error with a
descriptive message instead of returning a value, and no encoder or
force-encode work is performed on that path (the call trace is empty). -/
theorem C3_force_encoding_with_disabled_parser_raises (E : Env) (ids mask : Mat)
    (ids3 mask3 : List (List Int × List Int)) (ns : Nat) (as : AtomSpans) :
    FastR2D2Classification.forward { E with disableParser := true }
        ids mask ns as none true =
      (Except.error "Force encoding is not supported when disable_parser == True", []) ∧
    FastR2D2CrossSentence.forward { E with disableParser := true }
        ids3 mask3 ns as none true =
      (Except.error "Force encoding is not supported when disable_parser == True", []) :=
  ⟨rfl, rfl⟩

/-- C7: for every parsed-mode inference call (labels absent,
`force_encoding=False`), the parser (when enabled) supplies the merge guidance,
the encoder is invoked exactly once with no tree sampling requested and with
`lm_loss=False`, the tables are pooled via root-vector extraction, the result
is classified, and softmax over the class dimension produces the output — in
both variants (the trace shows exactly one encoder call). -/
theorem C7_parsed_inference_pipeline (E : Env) (ids mask : Mat)
    (ids3 mask3 : List (List Int × List Int)) (ns : Nat) (as : AtomSpans) :
    (let s_indices := if !E.disableParser then some (E.parserParse ids mask as) else none
     let results := E.r2d2Run ids mask s_indices 0 true true false
     FastR2D2Classification.forward E ids mask ns as none false =
       (Except.ok (Output.probs
          (((pooledRows results.tables results.tensor_cache).map E.classifier).map
            (softmaxRow E.qexp))),
        (if !E.disableParser then [Event.parserParse] else []) ++
          [Event.r2d2Call s_indices 0 true true false])) ∧
    (let iids := flattenPairs ids3
     let imask := flattenPairs mask3
     let s_indices := if !E.disableParser then some (E.parserParse iids imask as) else none
     let results := E.r2d2Run iids imask s_indices 0 true true false
     FastR2D2CrossSentence.forward E ids3 mask3 ns as none false =
       (Except.ok (Output.probs
          ((FastR2D2CrossSentence.pairwise_encoding E
             (unflattenPairs (pooledRows results.tables results.tensor_cache))).map
            (softmaxRow E.qexp))),
        (if !E.disableParser then [Event.parserParse] else []) ++
          [Event.r2d2Call s_indices 0 true true false])) :=
  ⟨rfl, rfl⟩

/-- C9: for every training call (labels provided), in both variants,
`force_encode` is invoked (with the module's parser passed to it, regardless of
`disable_parser`) and its classification loss is the first summand of the
returned loss; the inference-time configuration error is never raised during
training (the result is always `Except.ok`). -/
theorem C9_training_always_force_encodes (E : Env) (ids mask : Mat)
    (ids3 mask3 : List (List Int × List Int)) (ns : Nat) (as : AtomSpans)
    (lbls : Labels) (fe : Bool) :
    (∃ a b c, (FastR2D2Classification.forward E ids mask ns as (some lbls) fe).1 =
        Except.ok (Output.loss
          (E.crossEntropy ((E.forceEncode ids mask as).map E.classifier) lbls
            + a + b + c))) ∧
    Event.forceEncodeCall true ∈
      (FastR2D2Classification.forward E ids mask ns as (some lbls) fe).2 ∧
    (∃ a b c, (FastR2D2CrossSentence.forward E ids3 mask3 ns as (some lbls) fe).1 =
        Except.ok (Output.loss
          (E.crossEntropy
            (FastR2D2CrossSentence.pairwise_encoding E
              (unflattenPairs
                (E.forceEncode (flattenPairs ids3) (flattenPairs mask3) as))) lbls
            + a + b + c))) ∧
    Event.forceEncodeCall true ∈
      (FastR2D2CrossSentence.forward E ids3 mask3 ns as (some lbls) fe).2 := by
  refine ⟨⟨_, _, _, rfl⟩, ?_, ⟨_, _, _, rfl⟩, ?_⟩ <;>
    simp [FastR2D2Classification.forward, FastR2D2CrossSentence.forward]

/-- C10: for every call with labels provided, the value returned by `forward`
is independent of the `force_encoding` argument, in both variants: the flag is
read only on the inference (labels absent) branch. -/
theorem C10_training_ignores_force_encoding_flag (E : Env) (ids mask : Mat)
    (ids3 mask3 : List (List Int × List Int)) (ns : Nat) (as : AtomSpans)
    (lbls : Labels) (fe1 fe2 : Bool) :
    FastR2D2Classification.forward E ids mask ns as (some lbls) fe1 =
      FastR2D2Classification.forward E ids mask ns as (some lbls) fe2 ∧
    FastR2D2CrossSentence.forward E ids3 mask3 ns as (some lbls) fe1 =
      FastR2D2CrossSentence.forward E ids3 mask3 ns as (some lbls) fe2 :=
  ⟨rfl, rfl⟩

/-- C4: for every list of N tables and tensor cache, the pooling step
(`pooledRows`, used verbatim by both forwards) produces an N-row matrix whose
row i is exactly the `E_IJ` slot stored in the cache under
`tables[i].root.best_node.cache_id`, rows in input-table order. -/
theorem C4_pooling_row_order (tables : List CellTable) (cache : TensorCache)
    (i : Nat) :
    (pooledRows tables cache).length = tables.length ∧
    (pooledRows tables cache)[i]? =
      tables[i]?.map (fun t => cache.slotVal CacheSlots.E_IJ t.root.best_node.cache_id) := by
  constructor
  · simp [pooledRows, TensorCache.gather]
  · simp only [pooledRows, TensorCache.gather, List.map_cons, List.map_nil,
      List.headD_cons, List.getElem?_map, Option.map_map]
    rfl

/-- C5: the cross-sentence flatten (`input_ids.view(-1, L)` on a `(B, 2, L)`
input, embedded as `flattenPairs`) sends pair `b`'s two halves to rows `2·b`
and `2·b + 1`, the reshape of the pooled `(2·B, D)` output to `(B, 2, D)`
(embedded as `unflattenPairs`, applied by `FastR2D2CrossSentence.forward` to
the pooled rows) pairs exactly rows `2·b` and `2·b + 1` as entry `b`, and the
flatten/reshape round trip is the identity — batch and pair position are never
permuted. -/
theorem C5_flatten_reshape_round_trip {α : Type} (x : List (α × α)) (ys : List α)
    (b : Nat) :
    (flattenPairs x)[2 * b]? = x[b]?.map Prod.fst ∧
    (flattenPairs x)[2 * b + 1]? = x[b]?.map Prod.snd ∧
    (unflattenPairs ys)[b]? =
      ys[2 * b]?.bind (fun u => ys[2 * b + 1]?.map (fun v => (u, v))) ∧
    unflattenPairs (flattenPairs x) = x :=
  ⟨flattenPairs_getElem_fst x b, flattenPairs_getElem_snd x b,
   unflattenPairs_getElem ys b, unflatten_flatten x⟩

/-- C6: for every `(pairs, 2, D)` input, `FastR2D2CrossSentence.pairwise_encoding`
produces one output row per pair, and row i is the classifier applied to the
tree-decoder output at the first (task-marker) position of the length-3
sequence formed by prepending the fixed task-identifier embedding (the same
configured id for every pair) to the two pooled vectors of pair i. -/
theorem C6_pairwise_combiner (E : Env) (e_ij : List (Vec × Vec)) (i : Nat) :
    (FastR2D2CrossSentence.pairwise_encoding E e_ij).length = e_ij.length ∧
    (FastR2D2CrossSentence.pairwise_encoding E e_ij)[i]? =
      e_ij[i]?.map (fun p =>
        E.classifier (E.treeDecoder (E.embedding E.task_id, p.1, p.2)).1) := by
  have h : FastR2D2CrossSentence.pairwise_encoding E e_ij =
      e_ij.map (fun p =>
        E.classifier (E.treeDecoder (E.embedding E.task_id, p.1, p.2)).1) := by
    unfold FastR2D2CrossSentence.pairwise_encoding
    simp [List.map_replicate, zipWith_replicate_left, List.map_map, Function.comp]
  rw [h]
  constructor
  · simp
  · simp

/-- C2 (counterexample): in the cross-sentence variant, a training call with
`disable_parser=True` at a concrete input still invokes the parser to produce a
KL loss, and the KL term contributed to the training sum is 3, not 0 (the
total is 11 + 11 + 3 + 5 = 30, where the collaborators return the constants of
`testEnv`): the claim that in both variants the KL-loss term is exactly 0 and
the parser is not invoked is false. -/
theorem C2_counterexample_cross_kl_not_zero :
    Event.parserKL ∈ (FastR2D2CrossSentence.forward { testEnv with disableParser := true }
        [([1], [2])] [([1], [1])] 0 none (some [0]) false).2 ∧
    (FastR2D2CrossSentence.forward { testEnv with disableParser := true }
        [([1], [2])] [([1], [1])] 0 none (some [0]) false).1 =
      Except.ok (Output.loss 30) := by
  constructor
  · simp [FastR2D2CrossSentence.forward]
  · show Except.ok (Output.loss (11 + 11 + 3 + 5)) = Except.ok (Output.loss 30)
    norm_num

/-- C2 (amended): for every training call with `disable_parser=True`, in both
variants the merge-guidance `s_indices` passed to the encoder is absent
(`none`); in the single-sentence variant the parser is never invoked and the
KL-loss term in the training sum is exactly 0, but in the cross-sentence
variant the parser is still invoked with the sampled split masks/points and
its KL loss is included in the sum (it is not forced to 0). -/
theorem C2_disabled_parser_amended (E : Env) (ids mask : Mat)
    (ids3 mask3 : List (List Int × List Int)) (ns : Nat) (as : AtomSpans)
    (lbls : Labels) (fe : Bool) :
    (let D : Env := { E with disableParser := true }
     let results := D.r2d2Run ids mask none ns true true true
     FastR2D2Classification.forward D ids mask ns as (some lbls) fe =
       (Except.ok (Output.loss
          (D.crossEntropy ((D.forceEncode ids mask as).map D.classifier) lbls +
           D.crossEntropy ((pooledRows results.tables results.tensor_cache).map
             D.classifier) lbls +
           0 + results.loss)),
        [Event.r2d2Call none ns true true true, Event.forceEncodeCall true])) ∧
    (let D : Env := { E with disableParser := true }
     let iids := flattenPairs ids3
     let imask := flattenPairs mask3
     let results := D.r2d2Run iids imask none ns true true true
     FastR2D2CrossSentence.forward D ids3 mask3 ns as (some lbls) fe =
       (Except.ok (Output.loss
          (D.crossEntropy
            (FastR2D2CrossSentence.pairwise_encoding D
              (unflattenPairs (D.forceEncode iids imask as))) lbls +
           D.crossEntropy
            (FastR2D2CrossSentence.pairwise_encoding D
              (unflattenPairs (pooledRows results.tables results.tensor_cache))) lbls +
           D.parserKL iids imask results.sampled_trees.split_masks
             results.sampled_trees.split_points +
           results.loss)),
        [Event.r2d2Call none ns true true true, Event.parserKL,
         Event.forceEncodeCall true])) :=
  ⟨rfl, rfl⟩

/-- C8: for every inference call (labels absent) that returns, in both variants
and on both the parsed and force-encoded paths, the returned tensor is a valid
per-example probability distribution over the label dimension: every entry is
non-negative and each example's entries sum to 1 (given that the exponential is
positive, as the real `exp` is, and that the classifier head has at least one
output class). -/
theorem C8_inference_output_is_distribution (E : Env)
    (hexp : ∀ x, 0 < E.qexp x) (hcls : ∀ v, E.classifier v ≠ [])
    (ids mask : Mat) (ids3 mask3 : List (List Int × List Int)) (ns : Nat)
    (as : AtomSpans) (fe : Bool) (P : List (List ℚ)) :
    ((FastR2D2Classification.forward E ids mask ns as none fe).1 =
        Except.ok (Output.probs P) →
      ∀ row ∈ P, (∀ v ∈ row, 0 ≤ v) ∧ row.sum = 1) ∧
    ((FastR2D2CrossSentence.forward E ids3 mask3 ns as none fe).1 =
        Except.ok (Output.probs P) →
      ∀ row ∈ P, (∀ v ∈ row, 0 ≤ v) ∧ row.sum = 1) := by
  have key : ∀ (logits : List (List ℚ)), (∀ r ∈ logits, r ≠ []) →
      Except.ok (Output.probs (logits.map (softmaxRow E.qexp)))
        = (Except.ok (Output.probs P) : Except String Output) →
      ∀ row ∈ P, (∀ v ∈ row, 0 ≤ v) ∧ row.sum = 1 := by
    intro logits hne heq
    have h1 : Output.probs (logits.map (softmaxRow E.qexp)) = Output.probs P :=
      Except.ok.inj heq
    have h2 : logits.map (softmaxRow E.qexp) = P := Output.probs.inj h1
    subst h2
    exact probs_dist E.qexp hexp logits hne
  have hmapne : ∀ (pre : List Vec) (r : List ℚ), r ∈ pre.map E.classifier → r ≠ [] := by
    intro pre r hr
    rcases List.mem_map.mp hr with ⟨u, _, hu⟩
    exact hu ▸ hcls u
  have hpne : ∀ (l : List (Vec × Vec)) (r : List ℚ),
      r ∈ FastR2D2CrossSentence.pairwise_encoding E l → r ≠ [] := by
    intro l r hr
    unfold FastR2D2CrossSentence.pairwise_encoding at hr
    rcases List.mem_map.mp hr with ⟨u, _, hu⟩
    exact hu ▸ hcls u
  constructor
  · intro heq
    cases fe with
    | false =>
      exact key _ (hmapne (pooledRows
        (E.r2d2Run ids mask
          (if !E.disableParser then some (E.parserParse ids mask as) else none)
          0 true true false).tables
        (E.r2d2Run ids mask
          (if !E.disableParser then some (E.parserParse ids mask as) else none)
          0 true true false).tensor_cache)) heq
    | true =>
      cases hd : E.disableParser with
      | true =>
        rw [show (FastR2D2Classification.forward E ids mask ns as none true).1
            = Except.error "Force encoding is not supported when disable_parser == True" by
          simp [FastR2D2Classification.forward, hd]] at heq
        exact absurd heq (by simp)
      | false =>
        refine key _ (hmapne (E.forceEncode ids mask as)) ?_
        rw [show (FastR2D2Classification.forward E ids mask ns as none true).1
            = Except.ok (Output.probs
                (((E.forceEncode ids mask as).map E.classifier).map (softmaxRow E.qexp))) by
          simp [FastR2D2Classification.forward, hd]] at heq
        exact heq
  · intro heq
    cases fe with
    | false =>
      exact key _ (hpne (unflattenPairs (pooledRows
        (E.r2d2Run (flattenPairs ids3) (flattenPairs mask3)
          (if !E.disableParser then
            some (E.parserParse (flattenPairs ids3) (flattenPairs mask3) as)
           else none) 0 true true false).tables
        (E.r2d2Run (flattenPairs ids3) (flattenPairs mask3)
          (if !E.disableParser then
            some (E.parserParse (flattenPairs ids3) (flattenPairs mask3) as)
           else none) 0 true true false).tensor_cache))) heq
    | true =>
      cases hd : E.disableParser with
      | true =>
        rw [show (FastR2D2CrossSentence.forward E ids3 mask3 ns as none true).1
            = Except.error "Force encoding is not supported when disable_parser == True" by
          simp [FastR2D2CrossSentence.forward, hd]] at heq
        exact absurd heq (by simp)
      | false =>
        refine key _ (hpne (unflattenPairs
          (E.forceEncode (flattenPairs ids3) (flattenPairs mask3) as))) ?_
        rw [show (FastR2D2CrossSentence.forward E ids3 mask3 ns as none true).1
            = Except.ok (Output.probs
                ((FastR2D2CrossSentence.pairwise_encoding E
                  (unflattenPairs
                    (E.forceEncode (flattenPairs ids3) (flattenPairs mask3) as))).map
                  (softmaxRow E.qexp))) by
          simp [FastR2D2CrossSentence.forward, hd]] at heq
        exact heq

/-- Witness for C8: at the concrete environment `testEnv` (positive
exponential, two-class classifier head) and a concrete single-sentence
inference input, the theorem yields that the first output row sums to 1 and
its first entry is non-negative. -/
theorem C8_witness : [(1 : ℚ)/2, 1/2].sum = 1 ∧ (0 : ℚ) ≤ 1/2 := by
  have h := (C8_inference_output_is_distribution testEnv
      (fun _ => one_pos) (fun _ => List.cons_ne_nil _ _)
      [[1]] [[1]] [([1], [2])] [([1], [1])] 0 none false
      [[(1 : ℚ)/2, 1/2], [(1 : ℚ)/2, 1/2]]).1
      (by simp [FastR2D2Classification.forward, testEnv, pooledRows,
        TensorCache.gather, softmaxRow]
          ; norm_num)
  have hrow := h [(1 : ℚ)/2, 1/2] (by simp)
  exact ⟨hrow.2, hrow.1 (1/2) (by simp)⟩

end FastR2D2
